import Mathlib

/-!
Verification of the OpenAPI specification parser / test-data extraction layer
and the API-definition lifecycle tracker of the document360-ui-automation-poc
repository.

The TypeScript sources are shallowly embedded:

* decoded YAML/JSON documents become an inductive `Json` tree; JavaScript
  member access, truthiness and optional chaining are modelled explicitly
  (`jsGetOpt`, `jsGetE`, `truthy`);
* the format parsers and the dispatcher (`api-spec-parser.ts`:
  `YamlApiSpecParser.canParse`, `JsonApiSpecParser.canParse`,
  `ApiSpecParserFactory.createAuto`, `ApiSpecParser.parseApiSpec`,
  `validateApiSpec` and the accessor methods) become executable functions
  over `Json`; the YAML/JSON text decoders themselves are abstracted as
  function parameters, since no claim depends on the decoding algorithm;
* the lifecycle tracker (`api-helper.ts` under `utils/api/`:
  `deleteTrackedApiDefinitions`, `deleteDefinitionsUsingObserver`,
  `checkApiExists`, `handleDeleteResponse`; `api-response-observer.ts`:
  `ApiCreationObserver.onApiResponse` / `manualTrack`) becomes explicit
  state passing over `CleanupState`, with the network abstracted as an
  oracle `Network` and the bulk-delete HTTP calls recorded as a trace;
* the legacy flat copies of the observer (`src/utils/api-response-observer.ts`)
  are embedded separately (`legacyManualTrack`, `legacyOnApiResponseTrack`);
* array aliasing (fresh-copy getters) is modelled with a tiny explicit
  heap `Heap` of list cells.
-/

/-! ### Decoded document trees

`Json` models the tree produced by `yaml.load` / `JSON.parse`.  Object
fields are kept as an ordered association list: JavaScript objects
enumerate non-integer string keys in insertion order, which for a decoded
document is document order.  A possibly-`undefined` JavaScript value is an
`Option Json`, with `none` playing the role of `undefined`. -/
inductive Json where
  | null
  | bool (b : Bool)
  | num (n : Int)
  | str (s : String)
  | arr (elems : List Json)
  | obj (fields : List (String × Json))

/-- First binding of a key in an object's field list (decoders produce
objects with unique keys). -/
def Json.lookup? : List (String × Json) → String → Option Json
  | [], _ => none
  | (k, v) :: rest, key => if k == key then some v else Json.lookup? rest key

/-- JavaScript member access `j[k]` on a value that is not `undefined`
or `null`: a field of an object, `undefined` for primitives. -/
def Json.get : Json → String → Option Json
  | .obj fs, k => Json.lookup? fs k
  | _, _ => none

/-- JavaScript truthiness of a possibly-undefined value. -/
def truthy : Option Json → Bool
  | none => false
  | some .null => false
  | some (.bool b) => b
  | some (.num n) => n != 0
  | some (.str s) => !s.isEmpty
  | some (.arr _) => true
  | some (.obj _) => true

/-- Optional chaining `v?.k`, which is also plain member access whenever
the base is known to be truthy: `undefined`/`null` bases yield
`undefined` instead of throwing. -/
def jsGetOpt : Option Json → String → Option Json
  | none, _ => none
  | some .null, _ => none
  | some (.obj fs), k => Json.lookup? fs k
  | some _, _ => none

/-- The value of `a || b` (`a` when truthy, else `b`). -/
def jsOr (a : Option Json) (b : Json) : Json :=
  if truthy a then a.getD b else b

/-- `Object.keys` of a decoded value.  For documents the argument is an
object; the JavaScript index-keys behaviour on strings is irrelevant to
specification documents and modelled as the empty list. -/
def objKeysJ : Json → List String
  | .obj fs => fs.map Prod.fst
  | _ => []

/-! ### JavaScript string helpers used by the `canParse` heuristics -/

/-- Whether the second character list is a prefix of the first. -/
def listStarts : List Char → List Char → Bool
  | _, [] => true
  | [], _ :: _ => false
  | a :: as, b :: bs => a == b && listStarts as bs

/-- Whether the second character list occurs inside the first. -/
def listHasSub : List Char → List Char → Bool
  | [], n => n.isEmpty
  | h :: t, n => listStarts (h :: t) n || listHasSub t n

/-- JavaScript `hay.includes(needle)`. -/
def strIncludes (hay needle : String) : Bool :=
  listHasSub hay.data needle.data

/-- JavaScript `s.startsWith(pre)`. -/
def jsStartsWith (s pre : String) : Bool :=
  listStarts s.data pre.data

/-- JavaScript `s.endsWith(suf)`. -/
def jsEndsWith (s suf : String) : Bool :=
  listStarts s.data.reverse suf.data.reverse

/-- The whitespace stripped by `trim` (the ASCII whitespace relevant to
specification sources). -/
def isJsSpace (c : Char) : Bool :=
  c == ' ' || c == '\t' || c == '\n' || c == '\r'

/-- JavaScript `s.trim()`. -/
def jsTrim (s : String) : String :=
  ⟨((s.data.dropWhile isJsSpace).reverse.dropWhile isJsSpace).reverse⟩

/-- JavaScript `s.toLowerCase()` over the characters of a path. -/
def lowerStr (s : String) : String :=
  ⟨s.data.map Char.toLower⟩

/-- Index of the last dot in a character list, if any. -/
def lastDotIdx : List Char → Option Nat
  | [] => none
  | c :: cs =>
    match lastDotIdx cs with
    | some i => some (i + 1)
    | none => if c == '.' then some 0 else none

/-- The last path segment (the characters after the last slash). -/
def basenameChars (l : List Char) : List Char :=
  (l.reverse.takeWhile (fun c => c != '/')).reverse

/-- Node's `path.extname`: the extension of the last path segment, from
its last dot to the end; empty when there is no dot or the only dot is
the leading character of the segment. -/
def extname (p : String) : String :=
  let base := basenameChars p.data
  match lastDotIdx base with
  | none => ""
  | some 0 => ""
  | some i => ⟨base.drop i⟩

/-! ### Format parsers and the dispatcher (`api-spec-parser.ts`) -/

/-- Source kinds accepted by `ApiSpecParser` (enum `ApiSpecSourceType`). -/
inductive ApiSpecSourceType where
  | filePath
  | contentString
  | url
  | buffer
deriving DecidableEq, Repr

/-- The two registered format parsers, in registration order YAML, JSON. -/
inductive FormatParser where
  | yaml
  | json
deriving DecidableEq, Repr

/-- `YamlApiSpecParser.canParse`: by extension for file paths, by the
content heuristic (starts with `openapi:`/`swagger:`, or contains a
colon-newline or dash-space pattern) for content strings. -/
def yamlCanParse (source : String) (ty : ApiSpecSourceType) : Bool :=
  match ty with
  | .filePath =>
    let ext := lowerStr (extname source)
    ext == ".yaml" || ext == ".yml"
  | .contentString =>
    let trimmed := jsTrim source
    jsStartsWith trimmed "openapi:" || jsStartsWith trimmed "swagger:" ||
      strIncludes trimmed ":\n" || strIncludes trimmed "- "
  | _ => false

/-- `JsonApiSpecParser.canParse`: `.json` extension for file paths, a
trimmed-and-brace-delimited heuristic for content strings. -/
def jsonCanParse (source : String) (ty : ApiSpecSourceType) : Bool :=
  match ty with
  | .filePath => lowerStr (extname source) == ".json"
  | .contentString =>
    let trimmed := jsTrim source
    jsStartsWith trimmed "\x7b" && jsEndsWith trimmed "\x7d"
  | _ => false

/-- Dispatch predicate of a registered parser. -/
def canParse : FormatParser → String → ApiSpecSourceType → Bool
  | .yaml => yamlCanParse
  | .json => jsonCanParse

/-- `ApiSpecParserFactory.formatParsers`, in registration order. -/
def formatParsers : List FormatParser := [.yaml, .json]

/-- `getSupportedExtensions` of each format parser. -/
def getSupportedExtensions : FormatParser → List String
  | .yaml => [".yaml", ".yml"]
  | .json => [".json"]

/-- `ApiSpecParserFactory.getSupportedExtensions`: the flattened list of
all registered parsers' extensions. -/
def allSupportedExtensions : List String :=
  (formatParsers.map getSupportedExtensions).flatten

/-- The `formatParsers.find(p => p.canParse(source, sourceType))` step
shared by `createAuto` and `parseApiSpec`. -/
def findFormatParser (source : String) (ty : ApiSpecSourceType) : Option FormatParser :=
  formatParsers.find? (fun p => canParse p source ty)

/-- Error taxonomy of the parser subsystem; constructors carry the data
that the thrown `Error` messages name.  `wrapped` is the outer catch of
`parseApiSpec` re-throwing `Failed to parse API specification: ...`. -/
inductive SpecError where
  | unsupportedFormat (supportedExtensions : List String)
  | urlNotImplemented
  | unsupportedSourceType
  | missingInfo
  | missingTitle
  | missingVersion
  | decodeFailed (msg : String)
  | typeErr
  | wrapped (e : SpecError)
deriving DecidableEq, Repr

/-- Configuration produced by the factory (`source`, `sourceType`,
registry, `validationEnabled`, `cacheEnabled`). -/
structure ApiSpecParserConfig where
  source : String
  sourceType : ApiSpecSourceType
  registry : List FormatParser
  validationEnabled : Bool
  cacheEnabled : Bool
deriving DecidableEq, Repr

/-- `ApiSpecParserFactory.createAuto`: fails with the unsupported-format
error listing every registered extension when no parser's `canParse`
matches, else constructs a parser over the full registry with the
default options. -/
def createAuto (source : String) (ty : ApiSpecSourceType) :
    Except SpecError ApiSpecParserConfig :=
  match findFormatParser source ty with
  | none => .error (.unsupportedFormat allSupportedExtensions)
  | some _ => .ok ⟨source, ty, formatParsers, true, true⟩

/-- `ApiSpecParser.validateApiSpec`: truthiness checks of `spec`,
`spec.info`, `spec.info.title` and `spec.info.version`; the first two
share the missing-info error. -/
def validateApiSpec (spec : Option Json) : Except SpecError Unit :=
  if !truthy spec then .error .missingInfo
  else
    let info := jsGetOpt spec "info"
    if !truthy info then .error .missingInfo
    else if !truthy (jsGetOpt info "title") then .error .missingTitle
    else if !truthy (jsGetOpt info "version") then .error .missingVersion
    else .ok ()

/-- The validate-and-return tail of `parseApiSpec` applied to an already
decoded tree; validation errors are re-wrapped by the outer catch. -/
def parseApiSpecFromTree (validationEnabled : Bool) (t : Option Json) :
    Except SpecError (Option Json) :=
  if validationEnabled then
    match validateApiSpec t with
    | .error e => .error (.wrapped e)
    | .ok _ => .ok t
  else .ok t

/-- `ApiSpecParser.parseApiSpec` with the text decoders abstracted:
source-type checks, dispatch over the registry, decoding of the acquired
content and optional validation, with every error re-wrapped by the
outer catch.  For file paths `content` stands for the file's text. -/
def parseApiSpecContent (decode : FormatParser → String → Except SpecError (Option Json))
    (validationEnabled : Bool) (source content : String) (ty : ApiSpecSourceType) :
    Except SpecError (Option Json) :=
  match ty with
  | .url => .error (.wrapped .urlNotImplemented)
  | .buffer => .error (.wrapped .unsupportedSourceType)
  | _ =>
    match findFormatParser source ty with
    | none => .error (.wrapped (.unsupportedFormat allSupportedExtensions))
    | some p =>
      match decode p content with
      | .error e => .error (.wrapped e)
      | .ok t => parseApiSpecFromTree validationEnabled t

/-- JavaScript member access that throws a `TypeError` on an
`undefined`/`null` base, as in the unguarded `spec.info.title`. -/
def jsGetE (v : Option Json) (k : String) : Except SpecError (Option Json) :=
  match v with
  | none => .error .typeErr
  | some .null => .error .typeErr
  | some (.obj fs) => .ok (Json.lookup? fs k)
  | some _ => .ok none

/-- `ApiSpecParser.getApiTitle`: parse, then the unguarded access
`spec.info.title`. -/
def getApiTitle (decode : FormatParser → String → Except SpecError (Option Json))
    (validationEnabled : Bool) (source content : String) (ty : ApiSpecSourceType) :
    Except SpecError (Option Json) :=
  match parseApiSpecContent decode validationEnabled source content ty with
  | .error e => .error e
  | .ok spec =>
    match jsGetE spec "info" with
    | .error e => .error e
    | .ok info => jsGetE info "title"

/-- `ApiSpecParser.getApiVersion`: parse, then the unguarded access
`spec.info.version`. -/
def getApiVersion (decode : FormatParser → String → Except SpecError (Option Json))
    (validationEnabled : Bool) (source content : String) (ty : ApiSpecSourceType) :
    Except SpecError (Option Json) :=
  match parseApiSpecContent decode validationEnabled source content ty with
  | .error e => .error e
  | .ok spec =>
    match jsGetE spec "info" with
    | .error e => .error e
    | .ok info => jsGetE info "version"

/-- The `info.<field>` slot of a decoded tree, through safe access. -/
def infoField (t : Option Json) (k : String) : Option Json :=
  jsGetOpt (jsGetOpt t "info") k

/-- Whether a JavaScript value is `undefined` or `null` (member access
on it throws). -/
def isNullish : Option Json → Bool
  | none => true
  | some .null => true
  | some _ => false

/-! ### Specification accessors over a parsed spec value

These model the remaining `ApiSpecParser` accessor methods applied to
the parsed `spec` object (a `Json` value; successful validated parses
yield a truthy object, matching the unguarded uses below). -/

/-- `getEndpointPaths`: `spec.paths ? Object.keys(spec.paths) : []`. -/
def getEndpointPaths (spec : Json) : List String :=
  let paths := spec.get "paths"
  if truthy paths then objKeysJ (paths.getD .null) else []

/-- `getEndpointMethods`: keys of `spec.paths[path]` behind the
truthiness guards of the source. -/
def getEndpointMethods (spec : Json) (path : String) : List String :=
  let paths := spec.get "paths"
  if !truthy paths then []
  else
    let item := jsGetOpt paths path
    if !truthy item then [] else objKeysJ (item.getD .null)

/-- The guarded operation node `spec.paths[path][method]` that every
per-endpoint accessor starts from: `none` as soon as one of the
`!spec.paths || !spec.paths[path] || !spec.paths[path][method]` checks
fires. -/
def endpointOp? (spec : Json) (path method : String) : Option Json :=
  let paths := spec.get "paths"
  if !truthy paths then none
  else
    let item := jsGetOpt paths path
    if !truthy item then none
    else
      let op := jsGetOpt item method
      if !truthy op then none else op

/-- `getEndpointSummary`. -/
def getEndpointSummary (spec : Json) (path method : String) : Option Json :=
  match endpointOp? spec path method with
  | none => none
  | some op => op.get "summary"

/-- `getEndpointDescription`. -/
def getEndpointDescription (spec : Json) (path method : String) : Option Json :=
  match endpointOp? spec path method with
  | none => none
  | some op => op.get "description"

/-- `getEndpointParameters`: `... .parameters || []` behind the guards. -/
def getEndpointParameters (spec : Json) (path method : String) : Json :=
  match endpointOp? spec path method with
  | none => .arr []
  | some op => jsOr (op.get "parameters") (.arr [])

/-- `getEndpointResponses`: `... .responses || {}` behind the guards. -/
def getEndpointResponses (spec : Json) (path method : String) : Json :=
  match endpointOp? spec path method with
  | none => .obj []
  | some op => jsOr (op.get "responses") (.obj [])

/-- `getEndpointSecurity`: `... .security || []` behind the guards. -/
def getEndpointSecurity (spec : Json) (path method : String) : Json :=
  match endpointOp? spec path method with
  | none => .arr []
  | some op => jsOr (op.get "security") (.arr [])

/-- `getSchemas`: `spec.components?.schemas || \x7b\x7d`. -/
def getSchemas (spec : Json) : Json :=
  jsOr (jsGetOpt (spec.get "components") "schemas") (.obj [])

/-- `getSecuritySchemes`: `spec.components?.securitySchemes || \x7b\x7d`. -/
def getSecuritySchemes (spec : Json) : Json :=
  jsOr (jsGetOpt (spec.get "components") "securitySchemes") (.obj [])

/-- `getResponseSchema`:
`responses[responseCode]?.content?.[mediaType]?.schema || \x7b\x7d`. -/
def getResponseSchema (spec : Json) (path method responseCode mediaType : String) : Json :=
  let responses := getEndpointResponses spec path method
  jsOr (jsGetOpt (jsGetOpt (jsGetOpt (responses.get responseCode) "content") mediaType) "schema")
    (.obj [])

/-- `getResponseMediaTypes`: keys of
`responses[responseCode]?.content || \x7b\x7d`. -/
def getResponseMediaTypes (spec : Json) (path method responseCode : String) : List String :=
  let responses := getEndpointResponses spec path method
  let content := jsOr (jsGetOpt (responses.get responseCode) "content") (.obj [])
  objKeysJ content

/-- The default media-type selection performed where response schemas
are read (`ApiDocPage.validateSingleResponse`):
`mediaTypes.includes('application/json') ? 'application/json' : mediaTypes[0]`. -/
def defaultMediaType (mediaTypes : List String) : Option String :=
  if mediaTypes.contains "application/json" then some "application/json"
  else mediaTypes.head?

/-! ### Test-data extraction (`ApiDataSeeder.getTestData`) -/

/-- One per-method entry of the flattened test data. -/
structure MethodData where
  method : String
  summary : Option Json
  description : Option Json
  parameters : Json
  responses : Json
  security : Json

/-- One per-path entry of the flattened test data. -/
structure EndpointData where
  path : String
  methods : List MethodData

/-- The flattened consumption model built by `getTestData`. -/
structure ExtractedTestData where
  apiTitle : Option Json
  apiVersion : Option Json
  apiDescription : Option Json
  termsOfService : Option Json
  contactInfo : Option Json
  licenseInfo : Option Json
  servers : Json
  tags : Json
  endpointPaths : List String
  endpoints : List EndpointData
  schemas : Json
  securitySchemes : Json

/-- `ApiDataSeeder.getTestData` applied to a validated parsed spec: the
info accessors (validation guarantees a truthy `info`), the list
accessors with their `|| []` defaults, and the per-path, per-method
flattening. -/
def getTestData (spec : Json) : ExtractedTestData :=
  let info := spec.get "info"
  { apiTitle := jsGetOpt info "title"
    apiVersion := jsGetOpt info "version"
    apiDescription := jsGetOpt info "description"
    termsOfService := jsGetOpt info "termsOfService"
    contactInfo := jsGetOpt info "contact"
    licenseInfo := jsGetOpt info "license"
    servers := jsOr (spec.get "servers") (.arr [])
    tags := jsOr (spec.get "tags") (.arr [])
    endpointPaths := getEndpointPaths spec
    endpoints := (getEndpointPaths spec).map (fun p =>
      { path := p
        methods := (getEndpointMethods spec p).map (fun m =>
          { method := m
            summary := getEndpointSummary spec p m
            description := getEndpointDescription spec p m
            parameters := getEndpointParameters spec p m
            responses := getEndpointResponses spec p m
            security := getEndpointSecurity spec p m }) })
    schemas := getSchemas spec
    securitySchemes := getSecuritySchemes spec }

/-- The parse-then-extract pipeline run by the seeding layer on one
content string under one decoder, with validation enabled (the factory
default used by `ApiSpecParser.fromFile`). -/
def pipelineExtract (decode : String → Except SpecError (Option Json)) (content : String) :
    Except SpecError ExtractedTestData :=
  match decode content with
  | .error e => .error (.wrapped e)
  | .ok t =>
    match parseApiSpecFromTree true t with
    | .error e => .error e
    | .ok spec => .ok (getTestData (spec.getD .null))

/-! ### API lifecycle tracker (`api-response-observer.ts`, `api-helper.ts`) -/

/-- A tracked API definition tuple. -/
structure TrackedDef where
  apiDefinitionId : String
  projectDocumentVersionId : String
  authToken : String
deriving DecidableEq, Repr

/-- `trackedApiDefinitions.findIndex(e => e.apiDefinitionId === id)`,
as the index of the first entry with the given id. -/
def findIndexById : List TrackedDef → String → Option Nat
  | [], _ => none
  | e :: rest, id =>
    if e.apiDefinitionId == id then some 0
    else (findIndexById rest id).map (fun i => i + 1)

/-- `ApiCreationObserver.manualTrack` of the active observer
(`utils/api/api-response-observer.ts`): replace the entry at the first
index with the same `apiDefinitionId`, else push. -/
def manualTrack (l : List TrackedDef) (d : TrackedDef) : List TrackedDef :=
  match findIndexById l d.apiDefinitionId with
  | some i => l.set i d
  | none => l ++ [d]

/-- The fields of an observed API response that the creation observer
inspects: `response.type === 'creation'`, truthiness of
`body?.success`, and `body?.result?.apiDefinitionId` /
`...projectDocumentVersionId`. -/
structure CreationResponse where
  isCreation : Bool
  bodySuccess : Bool
  apiDefinitionId : Option String
  projectDocumentVersionId : String
deriving DecidableEq, Repr

/-- `ApiCreationObserver.onApiResponse` of the active observer: on a
successful creation response, upsert the tuple keyed by
`apiDefinitionId` (auth token taken from the globally captured one). -/
def onApiResponseTrack (capturedAuthToken : String) (l : List TrackedDef)
    (r : CreationResponse) : List TrackedDef :=
  match r.apiDefinitionId with
  | none => l
  | some id =>
    if r.isCreation && r.bodySuccess && id != "" then
      match findIndexById l id with
      | some i => l.set i ⟨id, r.projectDocumentVersionId, capturedAuthToken⟩
      | none => l ++ [⟨id, r.projectDocumentVersionId, capturedAuthToken⟩]
    else l

/-- `ApiCreationObserver.manualTrack` of the legacy flat observer
(`src/utils/api-response-observer.ts`): an unconditional push. -/
def legacyManualTrack (l : List TrackedDef) (d : TrackedDef) : List TrackedDef :=
  l ++ [d]

/-- `ApiCreationObserver.onApiResponse` of the legacy flat observer: an
unconditional push on a successful creation response (auth token from
the response's authorization header). -/
def legacyOnApiResponseTrack (headerAuthToken : String) (l : List TrackedDef)
    (r : CreationResponse) : List TrackedDef :=
  match r.apiDefinitionId with
  | none => l
  | some id =>
    if r.isCreation && r.bodySuccess && id != "" then
      l ++ [⟨id, r.projectDocumentVersionId, headerAuthToken⟩]
    else l

/-- Number of tracked entries carrying a given `apiDefinitionId`. -/
def countById (l : List TrackedDef) (id : String) : Nat :=
  (l.filter (fun e => e.apiDefinitionId == id)).length

/-! ### Cleanup (`ApiHelper`, `utils/api/api-helper.ts`) -/

/-- The mutable state read and written by `deleteTrackedApiDefinitions`:
the per-instance reentrancy flag, the class-static cleanup-completed
flag and legacy globals, and the creation observer's tracked list. -/
structure CleanupState where
  cleanupInProgress : Bool
  cleanupCompleted : Bool
  tracked : List TrackedDef
  globalIds : List String
  globalVersionId : String
  globalAuthToken : String
deriving DecidableEq, Repr

/-- The network oracle: the outcome `response.ok()` of the existence
GET for each id (`false` also covers a thrown request, which
`checkApiExists` catches and maps to `false`), and the outcome of the
bulk-delete POST. -/
structure Network where
  apiExists : String → Bool
  bulkDeleteOk : Bool

/-- Result of one cleanup entry point: the returned boolean, the state
left behind, and the trace of bulk-delete calls (each element is the
`apiDefinitionList` the call posted). -/
structure DeleteOutcome where
  result : Bool
  state : CleanupState
  bulkDeleteCalls : List (List String)
deriving Repr

/-- `[...new Set(ids)]`: deduplication preserving first occurrences. -/
def dedupPreserve (l : List String) : List String :=
  l.foldl (fun acc x => if acc.contains x then acc else acc ++ [x]) []

/-- `ApiHelper.deleteDefinitionsUsingObserver`: deduplicate the ids,
keep those whose existence GET reports ok, return `true` with no bulk
call when none survive, else make the one bulk-delete call;
`handleDeleteResponse` clears the observer list and the legacy globals
on success and clears nothing on failure.  `existingApisOf` names the
local `existingApis`: the deduplicated ids (`uniqueApiIds`) surviving
the per-id existence GET. -/
def existingApisOf (net : Network) (definitions : List TrackedDef) : List String :=
  (dedupPreserve (definitions.map (fun d => d.apiDefinitionId))).filter net.apiExists

def deleteDefinitionsUsingObserver (net : Network) (st : CleanupState)
    (definitions : List TrackedDef) : DeleteOutcome :=
  if (existingApisOf net definitions).isEmpty then
    ⟨true, st, []⟩
  else if net.bulkDeleteOk then
    ⟨true, { st with tracked := [], globalIds := [], globalVersionId := "", globalAuthToken := "" },
      [existingApisOf net definitions]⟩
  else
    ⟨false, st, [existingApisOf net definitions]⟩

/-- `ApiHelper.deleteLegacyTrackedDefinitions`: bail out without a
token, else one bulk-delete call over the legacy global id list. -/
def deleteLegacyTrackedDefinitions (net : Network) (st : CleanupState) : DeleteOutcome :=
  if st.globalAuthToken == "" then ⟨false, st, []⟩
  else if net.bulkDeleteOk then
    ⟨true, { st with tracked := [], globalIds := [], globalVersionId := "", globalAuthToken := "" },
      [st.globalIds]⟩
  else ⟨false, st, [st.globalIds]⟩

/-- `ApiHelper.deleteTrackedApiDefinitions`: the in-progress and
cleanup-completed guards, then the observer path (clearing the tracked
list afterwards regardless of outcome), the nothing-tracked path, or
the legacy path (clearing the legacy id list afterwards regardless of
outcome); the completed flag is set only on success, and the
in-progress flag is restored by the `finally`. -/
def deleteTrackedApiDefinitions (net : Network) (st : CleanupState) : DeleteOutcome :=
  if st.cleanupInProgress then ⟨true, st, []⟩
  else if st.cleanupCompleted then ⟨true, st, []⟩
  else if !st.tracked.isEmpty then
    let o := deleteDefinitionsUsingObserver net st st.tracked
    let st2 := { o.state with tracked := [] }
    ⟨o.result, if o.result then { st2 with cleanupCompleted := true } else st2,
      o.bulkDeleteCalls⟩
  else if st.globalIds.isEmpty then
    ⟨true, { st with cleanupCompleted := true }, []⟩
  else
    let o := deleteLegacyTrackedDefinitions net st
    let st2 := { o.state with globalIds := [] }
    ⟨o.result, if o.result then { st2 with cleanupCompleted := true } else st2,
      o.bulkDeleteCalls⟩

/-- Two successive cleanup calls, as issued by duplicate teardown
hooks: the pair of returned booleans, the final state, and the
concatenated bulk-delete trace. -/
def deleteTwice (net1 net2 : Network) (st : CleanupState) :
    (Bool × Bool) × CleanupState × List (List String) :=
  let o1 := deleteTrackedApiDefinitions net1 st
  let o2 := deleteTrackedApiDefinitions net2 o1.state
  ((o1.result, o2.result), o2.state, o1.bulkDeleteCalls ++ o2.bulkDeleteCalls)

/-! ### Aliasing model for the fresh-copy getters

JavaScript arrays are references into a store; the spread copy
`[...arr]` allocates a new cell.  `Heap` is the minimal store needed to
state that mutating the returned array does not affect the internal
one. -/

/-- A store of list-valued cells addressed by allocation order. -/
structure Heap (α : Type) where
  cells : List (List α)

/-- Allocate a fresh cell holding `v`; returns the new heap and the
fresh reference. -/
def Heap.alloc (h : Heap α) (v : List α) : Heap α × Nat :=
  (⟨h.cells ++ [v]⟩, h.cells.length)

/-- Contents of the cell behind a reference. -/
def Heap.read (h : Heap α) (r : Nat) : List α :=
  h.cells.getD r []

/-- Overwrite the cell behind a reference (a mutation of that array). -/
def Heap.write (h : Heap α) (r : Nat) (v : List α) : Heap α :=
  ⟨h.cells.set r v⟩

/-- `ApiCreationObserver.getTrackedDefinitions`: return
`[...this.trackedApiDefinitions]`, a freshly allocated copy of the
internal array referenced by `obsRef`. -/
def getTrackedDefinitions (h : Heap TrackedDef) (obsRef : Nat) : Heap TrackedDef × Nat :=
  h.alloc (h.read obsRef)

/-- `ApiDataSeeder.getCreatedApiDefinitions`: return
`[...this.createdApiDefinitions]`, a freshly allocated copy of the
internal array referenced by `seederRef`. -/
def getCreatedApiDefinitions (h : Heap String) (seederRef : Nat) : Heap String × Nat :=
  h.alloc (h.read seederRef)

/-! ### Claim C8: endpoint paths preserve document order -/

/-- C8: for every parsed specification with a (non-empty) `paths`
mapping, `getEndpointPaths()` returns exactly the keys of `paths` in
the order they carry in the decoded document tree, i.e. document order,
with no sorting. -/
theorem c8_endpoint_paths_document_order (fs kvs : List (String × Json))
    (hp : Json.lookup? fs "paths" = some (Json.obj kvs)) (_hne : kvs ≠ []) :
    getEndpointPaths (Json.obj fs) = kvs.map Prod.fst := by
  simp [getEndpointPaths, Json.get, hp, truthy, objKeysJ]

/-- Witness for C8 at a concrete two-path document whose keys are not
alphabetically sorted: the order `/zebra`, `/alpha` is preserved. -/
theorem c8_witness :
    getEndpointPaths (Json.obj [("openapi", Json.str "3.0.0"),
        ("paths", Json.obj [("/zebra", Json.obj []), ("/alpha", Json.obj [])])])
      = ["/zebra", "/alpha"] :=
  c8_endpoint_paths_document_order
    [("openapi", Json.str "3.0.0"),
      ("paths", Json.obj [("/zebra", Json.obj []), ("/alpha", Json.obj [])])]
    [("/zebra", Json.obj []), ("/alpha", Json.obj [])] (by rfl) (by simp)

/-! ### Claim C3: default media-type selection -/

/-- C3: where response schemas are read, the default media type is
`application/json` whenever it occurs among the response's media types
and otherwise the first available media type; in particular
`['application/xml','application/json']` resolves to
`application/json` and `['application/xml']` alone resolves to
`application/xml`. -/
theorem c3_default_media_type (spec : Json) (p m code : String) :
    ((getResponseMediaTypes spec p m code).contains "application/json" = true →
      defaultMediaType (getResponseMediaTypes spec p m code) = some "application/json")
    ∧ ((getResponseMediaTypes spec p m code).contains "application/json" = false →
      defaultMediaType (getResponseMediaTypes spec p m code)
        = (getResponseMediaTypes spec p m code).head?)
    ∧ defaultMediaType ["application/xml", "application/json"] = some "application/json"
    ∧ defaultMediaType ["application/xml"] = some "application/xml" := by
  refine ⟨fun h => ?_, fun h => ?_, rfl, rfl⟩ <;>
    · unfold defaultMediaType
      rw [h]
      simp

/-- Concrete document carrying a response with media types
`application/xml` then `application/json`. -/
def c3specBoth : Json :=
  Json.obj [("paths", Json.obj [("/pets", Json.obj [("get", Json.obj [("responses",
    Json.obj [("200", Json.obj [("content",
      Json.obj [("application/xml", Json.obj []), ("application/json", Json.obj [])])])])])])])]

/-- Concrete document carrying a response with the single media type
`application/xml`. -/
def c3specXml : Json :=
  Json.obj [("paths", Json.obj [("/pets", Json.obj [("get", Json.obj [("responses",
    Json.obj [("200", Json.obj [("content",
      Json.obj [("application/xml", Json.obj [])])])])])])])]

/-- Witness for C3 on the two concrete documents of the claim. -/
theorem c3_witness :
    getResponseMediaTypes c3specBoth "/pets" "get" "200" = ["application/xml", "application/json"]
    ∧ defaultMediaType (getResponseMediaTypes c3specBoth "/pets" "get" "200")
        = some "application/json"
    ∧ getResponseMediaTypes c3specXml "/pets" "get" "200" = ["application/xml"]
    ∧ defaultMediaType (getResponseMediaTypes c3specXml "/pets" "get" "200")
        = some "application/xml" :=
  ⟨rfl, (c3_default_media_type c3specBoth "/pets" "get" "200").1 rfl, rfl,
    ((c3_default_media_type c3specXml "/pets" "get" "200").2.1 rfl).trans rfl⟩

/-! ### Claim C7: dispatch failure and registration order -/

/-- C7: when no registered parser's `canParse` accepts the source, both
`createAuto` and the parse-time dispatch fail with the
unsupported-format error listing all registered extensions
(`.yaml`, `.yml`, `.json`); when at least one accepts, the first
accepting parser in registration order (YAML before JSON) is
selected. -/
theorem c7_dispatch (source : String) (ty : ApiSpecSourceType) :
    (canParse .yaml source ty = false → canParse .json source ty = false →
      createAuto source ty = .error (.unsupportedFormat allSupportedExtensions)
      ∧ (∀ decode v content, (ty = .filePath ∨ ty = .contentString) →
          parseApiSpecContent decode v source content ty
            = .error (.wrapped (.unsupportedFormat allSupportedExtensions))))
    ∧ (canParse .yaml source ty = true → findFormatParser source ty = some .yaml)
    ∧ (canParse .yaml source ty = false → canParse .json source ty = true →
      findFormatParser source ty = some .json)
    ∧ allSupportedExtensions = [".yaml", ".yml", ".json"] := by
  have hfind : ∀ (h1 : canParse .yaml source ty = false) (h2 : canParse .json source ty = false),
      findFormatParser source ty = none := by
    intro h1 h2
    simp [findFormatParser, formatParsers, List.find?, h1, h2]
  refine ⟨fun h1 h2 => ⟨?_, ?_⟩, fun h1 => ?_, fun h1 h2 => ?_, rfl⟩
  · simp [createAuto, hfind h1 h2]
  · intro decode v content hty
    rcases hty with h | h <;> subst h <;>
      simp [parseApiSpecContent, hfind h1 h2]
  · simp [findFormatParser, formatParsers, List.find?, h1]
  · simp [findFormatParser, formatParsers, List.find?, h1, h2]

/-- Witness for C7: a `.txt` path is rejected with the full extension
list, and a `.yaml` path selects the YAML parser. -/
theorem c7_witness :
    createAuto "file.txt" .filePath = .error (.unsupportedFormat [".yaml", ".yml", ".json"])
    ∧ findFormatParser "openapi.yaml" .filePath = some .yaml :=
  ⟨(((c7_dispatch "file.txt" .filePath).1 (by rfl) (by rfl)).1).trans rfl,
    (c7_dispatch "openapi.yaml" .filePath).2.1 (by rfl)⟩

/-! ### Claim C10: the getters return fresh copies -/

/-- Reading before the end of a list through `getD` ignores an appended
tail. -/
theorem listGetD_append_left {α : Type} (l l' : List α) (d : α) (n : Nat)
    (h : n < l.length) : (l ++ l').getD n d = l.getD n d := by
  induction l generalizing n with
  | nil => simp at h
  | cons a t ih =>
    cases n with
    | zero => rfl
    | succ k =>
      have hk : k < t.length := by
        simp only [List.length_cons] at h
        omega
      simpa [List.getD] using ih k hk

/-- Reading the cell appended at the end of a list. -/
theorem listGetD_append_length {α : Type} (l : List α) (x : α) (d : α) :
    (l ++ [x]).getD l.length d = x := by
  induction l with
  | nil => rfl
  | cons a t ih => simp [List.getD, ih]

/-- Writing one index leaves reads at another index unchanged. -/
theorem listGetD_set_ne {α : Type} (l : List α) (i j : Nat) (v : α) (d : α)
    (h : i ≠ j) : (l.set i v).getD j d = l.getD j d := by
  induction l generalizing i j with
  | nil => rfl
  | cons a t ih =>
    cases i with
    | zero =>
      cases j with
      | zero => exact absurd rfl h
      | succ k => rfl
    | succ i' =>
      cases j with
      | zero => rfl
      | succ k => simpa [List.getD] using ih i' k (by omega)

/-- C10: `getTrackedDefinitions` on the creation observer and
`getCreatedApiDefinitions` on the data seeder allocate fresh copies:
the returned reference carries the current contents, and overwriting
the returned array (with any lists `v`, `w`) leaves the internal
tracked state unchanged. -/
theorem c10_getters_return_fresh_copies (h : Heap TrackedDef) (g : Heap String)
    (obsRef seederRef : Nat) (v : List TrackedDef) (w : List String)
    (hobs : obsRef < h.cells.length) (hsee : seederRef < g.cells.length) :
    ((getTrackedDefinitions h obsRef).1.read (getTrackedDefinitions h obsRef).2
        = h.read obsRef
      ∧ ((getTrackedDefinitions h obsRef).1.write (getTrackedDefinitions h obsRef).2 v).read
          obsRef = h.read obsRef)
    ∧ ((getCreatedApiDefinitions g seederRef).1.read (getCreatedApiDefinitions g seederRef).2
        = g.read seederRef
      ∧ ((getCreatedApiDefinitions g seederRef).1.write
          (getCreatedApiDefinitions g seederRef).2 w).read seederRef = g.read seederRef) := by
  refine ⟨⟨?_, ?_⟩, ⟨?_, ?_⟩⟩
  · exact listGetD_append_length h.cells (h.read obsRef) []
  · show ((h.cells ++ [h.read obsRef]).set h.cells.length v).getD obsRef [] = h.read obsRef
    rw [listGetD_set_ne _ _ _ _ _ (by omega)]
    exact listGetD_append_left h.cells _ [] obsRef hobs
  · exact listGetD_append_length g.cells (g.read seederRef) []
  · show ((g.cells ++ [g.read seederRef]).set g.cells.length w).getD seederRef [] = g.read seederRef
    rw [listGetD_set_ne _ _ _ _ _ (by omega)]
    exact listGetD_append_left g.cells _ [] seederRef hsee

/-- Witness for C10 on a one-cell heap holding one tracked definition
and a one-cell heap holding one id, overwriting the copies with the
empty list. -/
theorem c10_witness :
    ((getTrackedDefinitions ⟨[[⟨"id1", "v1", "tok"⟩]]⟩ 0).1.write
        (getTrackedDefinitions ⟨[[⟨"id1", "v1", "tok"⟩]]⟩ 0).2 []).read 0
      = [⟨"id1", "v1", "tok"⟩]
    ∧ ((getCreatedApiDefinitions ⟨[["id1"]]⟩ 0).1.write
        (getCreatedApiDefinitions ⟨[["id1"]]⟩ 0).2 []).read 0 = ["id1"] :=
  ⟨((c10_getters_return_fresh_copies ⟨[[⟨"id1", "v1", "tok"⟩]]⟩ ⟨[["id1"]]⟩ 0 0 [] []
      (by simp) (by simp)).1.2).trans rfl,
    ((c10_getters_return_fresh_copies ⟨[[⟨"id1", "v1", "tok"⟩]]⟩ ⟨[["id1"]]⟩ 0 0 [] []
      (by simp) (by simp)).2.2).trans rfl⟩

/-! ### Claim C5: deduplicated last-write-wins tracking -/

/-- A zero occurrence count means no entry matches the id. -/
theorem countById_zero (l : List TrackedDef) (id : String)
    (h : countById l id = 0) : ∀ e ∈ l, (e.apiDefinitionId == id) = false := by
  unfold countById at h
  rw [List.length_eq_zero, List.filter_eq_nil_iff] at h
  intro e he
  simpa using h e he

/-- `findIndex` misses when no entry matches. -/
theorem findIndexById_none (l : List TrackedDef) (id : String)
    (h : ∀ e ∈ l, (e.apiDefinitionId == id) = false) :
    findIndexById l id = none := by
  induction l with
  | nil => rfl
  | cons a t ih =>
    have ha := h a (by simp)
    simp [findIndexById, ha, ih (fun e he => h e (by simp [he]))]

/-- With no matching entry, the upsert appends. -/
theorem manualTrack_eq_append (l : List TrackedDef) (d : TrackedDef)
    (h : ∀ e ∈ l, (e.apiDefinitionId == d.apiDefinitionId) = false) :
    manualTrack l d = l ++ [d] := by
  unfold manualTrack
  rw [findIndexById_none l _ h]

/-- `findIndex` of the single matching entry sitting at the end. -/
theorem findIndexById_append_singleton (l : List TrackedDef) (d : TrackedDef) (id : String)
    (hd : (d.apiDefinitionId == id) = true)
    (h : ∀ e ∈ l, (e.apiDefinitionId == id) = false) :
    findIndexById (l ++ [d]) id = some l.length := by
  induction l with
  | nil => simp [findIndexById, hd]
  | cons a t ih =>
    have ha := h a (by simp)
    simp [findIndexById, ha, ih (fun e he => h e (by simp [he]))]

/-- Setting the appended last cell replaces it. -/
theorem set_append_length {α : Type} (l : List α) (a b : α) :
    (l ++ [a]).set l.length b = l ++ [b] := by
  induction l with
  | nil => rfl
  | cons x t ih =>
    show x :: ((t ++ [a]).set t.length b) = x :: (t ++ [b])
    rw [ih]

/-- Counting and filtering after appending the one matching entry. -/
theorem countById_append_singleton (l : List TrackedDef) (d : TrackedDef) (id : String)
    (hd : (d.apiDefinitionId == id) = true)
    (h : ∀ e ∈ l, (e.apiDefinitionId == id) = false) :
    countById (l ++ [d]) id = 1
    ∧ (l ++ [d]).filter (fun e => e.apiDefinitionId == id) = [d] := by
  have hfil : l.filter (fun e => e.apiDefinitionId == id) = [] := by
    rw [List.filter_eq_nil_iff]
    simpa using h
  refine ⟨?_, ?_⟩
  · unfold countById
    rw [List.filter_append, hfil]
    simp [hd]
  · rw [List.filter_append, hfil]
    simp [hd]

/-- C5 (amended): in the active `ApiCreationObserver`
(`utils/api/api-response-observer.ts`), tracking an id a second time —
by `manualTrack` or by re-observation through `onApiResponse` — with a
different `projectDocumentVersionId` leaves exactly one entry for that
id, carrying the second version id (last-write-wins). -/
theorem c5_last_write_wins (l : List TrackedDef) (d1 d2 : TrackedDef)
    (r : CreationResponse) (tok : String)
    (hid : d1.apiDefinitionId = d2.apiDefinitionId)
    (hzero : countById l d2.apiDefinitionId = 0)
    (hr : r.apiDefinitionId = some d1.apiDefinitionId)
    (hcr : r.isCreation = true) (hsu : r.bodySuccess = true)
    (hne : (d1.apiDefinitionId == "") = false) :
    (countById (manualTrack (manualTrack l d1) d2) d2.apiDefinitionId = 1
      ∧ (manualTrack (manualTrack l d1) d2).filter
          (fun e => e.apiDefinitionId == d2.apiDefinitionId) = [d2])
    ∧ (countById (onApiResponseTrack tok (manualTrack l d1) r) d2.apiDefinitionId = 1
      ∧ (onApiResponseTrack tok (manualTrack l d1) r).filter
          (fun e => e.apiDefinitionId == d2.apiDefinitionId)
        = [⟨d1.apiDefinitionId, r.projectDocumentVersionId, tok⟩]) := by
  have h2 := countById_zero l d2.apiDefinitionId hzero
  have h1 : ∀ e ∈ l, (e.apiDefinitionId == d1.apiDefinitionId) = false := by
    rw [hid]; exact h2
  have hfirst : manualTrack l d1 = l ++ [d1] := manualTrack_eq_append l d1 h1
  constructor
  · have hrepl : manualTrack (l ++ [d1]) d2 = l ++ [d2] := by
      unfold manualTrack
      rw [findIndexById_append_singleton l d1 _ (by simp [hid]) h2]
      exact set_append_length l d1 d2
    rw [hfirst, hrepl]
    exact countById_append_singleton l d2 _ (by simp) h2
  · have hobs : onApiResponseTrack tok (manualTrack l d1) r
        = l ++ [⟨d1.apiDefinitionId, r.projectDocumentVersionId, tok⟩] := by
      rw [hfirst]
      unfold onApiResponseTrack
      rw [hr]
      simp only [hcr, hsu, bne, hne, Bool.not_false, Bool.and_true, Bool.true_and, if_true]
      rw [findIndexById_append_singleton l d1 _ (by simp) h1]
      exact set_append_length l d1 _
    rw [hobs]
    exact countById_append_singleton l ⟨d1.apiDefinitionId, r.projectDocumentVersionId, tok⟩ _
      (by simp [hid]) h2

/-- C5 counterexample: in the legacy flat `ApiCreationObserver`
(`src/utils/api-response-observer.ts`), also cited by the claim,
`manualTrack` pushes unconditionally, so tracking `id1` a second time
with a different `projectDocumentVersionId` leaves two entries for
`id1` rather than one. -/
theorem c5_counterexample :
    countById (legacyManualTrack (legacyManualTrack [] ⟨"id1", "v1", "t"⟩)
      ⟨"id1", "v2", "t"⟩) "id1" = 2
    ∧ legacyManualTrack (legacyManualTrack [] ⟨"id1", "v1", "t"⟩) ⟨"id1", "v2", "t"⟩
        = [⟨"id1", "v1", "t"⟩, ⟨"id1", "v2", "t"⟩] :=
  ⟨rfl, rfl⟩

/-- Witness for C5 starting from the empty tracked list: after the
second track of `id1` the single entry carries `v2`. -/
theorem c5_witness :
    countById (manualTrack (manualTrack [] ⟨"id1", "v1", "t"⟩) ⟨"id1", "v2", "t"⟩) "id1" = 1
    ∧ (manualTrack (manualTrack [] ⟨"id1", "v1", "t"⟩) ⟨"id1", "v2", "t"⟩).filter
        (fun e => e.apiDefinitionId == "id1") = [⟨"id1", "v2", "t"⟩] :=
  (c5_last_write_wins [] ⟨"id1", "v1", "t"⟩ ⟨"id1", "v2", "t"⟩
    ⟨true, true, some "id1", "v2"⟩ "t" rfl rfl rfl rfl rfl rfl).1

/-! ### Claims C6, C9, C4: cleanup behaviour -/

/-- Everything in the result of the dedup fold comes from the
accumulator or the input. -/
theorem dedup_go_subset : ∀ (l acc : List String) (x : String),
    x ∈ l.foldl (fun a y => if a.contains y then a else a ++ [y]) acc →
    x ∈ acc ∨ x ∈ l := by
  intro l
  induction l with
  | nil => intro acc x h; exact .inl h
  | cons a t ih =>
    intro acc x h
    rw [List.foldl_cons] at h
    rcases ih _ x h with h1 | h1
    · by_cases hc : acc.contains a = true
      · simp only [hc, if_true] at h1
        exact .inl h1
      · simp only [Bool.not_eq_true] at hc
        rw [hc] at h1
        simp only [Bool.false_eq_true, if_false, List.mem_append,
          List.mem_singleton] at h1
        rcases h1 with h2 | h2
        · exact .inl h2
        · subst h2
          exact .inr (by simp)
    · right
      simp [h1]

/-- Everything in the accumulator or the input survives the dedup fold. -/
theorem mem_dedup_go : ∀ (l acc : List String) (x : String),
    (x ∈ acc ∨ x ∈ l) →
    x ∈ l.foldl (fun a y => if a.contains y then a else a ++ [y]) acc := by
  intro l
  induction l with
  | nil =>
    intro acc x h
    rcases h with h | h
    · exact h
    · simp at h
  | cons a t ih =>
    intro acc x h
    rw [List.foldl_cons]
    apply ih
    rcases h with h | h
    · left
      by_cases hc : a ∈ acc <;> simp [hc, h]
    · rcases List.mem_cons.mp h with h2 | h2
      · subst h2
        left
        by_cases hc : x ∈ acc <;> simp [hc]
      · exact .inr h2

/-- `[...new Set(ids)]` yields a subset of the ids. -/
theorem dedupPreserve_subset (l : List String) (x : String) (h : x ∈ dedupPreserve l) :
    x ∈ l := by
  rcases dedup_go_subset l [] x h with h1 | h1
  · simp at h1
  · exact h1

/-- Every id survives `[...new Set(ids)]`. -/
theorem mem_dedupPreserve (l : List String) (x : String) (h : x ∈ l) :
    x ∈ dedupPreserve l :=
  mem_dedup_go l [] x (.inr h)

/-- When every id fails its existence check, no id survives. -/
theorem existingApisOf_nil (net : Network) (defs : List TrackedDef)
    (hall : ∀ d ∈ defs, net.apiExists d.apiDefinitionId = false) :
    existingApisOf net defs = [] := by
  rw [List.eq_nil_iff_forall_not_mem]
  intro x hx
  unfold existingApisOf at hx
  have hx2 := List.mem_filter.mp hx
  have hx3 := dedupPreserve_subset _ _ hx2.1
  rcases List.mem_map.mp hx3 with ⟨d, hd, rfl⟩
  rw [hall d hd] at hx2
  exact absurd hx2.2 (by simp)

/-- C6: every deduplicated tracked id is existence-checked and a
failing check excludes it from the bulk-delete payload; when no id
survives the check the bulk-delete call is never made and cleanup
returns `true`, both at the `deleteDefinitionsUsingObserver` level and
through `deleteTrackedApiDefinitions`. -/
theorem c6_existence_precheck (net : Network) (st : CleanupState) (defs : List TrackedDef) :
    (∀ id, net.apiExists id = false →
      ∀ c ∈ (deleteDefinitionsUsingObserver net st defs).bulkDeleteCalls, id ∉ c)
    ∧ ((∀ d ∈ defs, net.apiExists d.apiDefinitionId = false) →
      deleteDefinitionsUsingObserver net st defs = ⟨true, st, []⟩)
    ∧ (st.cleanupInProgress = false → st.cleanupCompleted = false → st.tracked ≠ [] →
      (∀ d ∈ st.tracked, net.apiExists d.apiDefinitionId = false) →
      (deleteTrackedApiDefinitions net st).result = true
      ∧ (deleteTrackedApiDefinitions net st).bulkDeleteCalls = []) := by
  have hkey : ∀ defs', (∀ d ∈ defs', net.apiExists d.apiDefinitionId = false) →
      deleteDefinitionsUsingObserver net st defs' = ⟨true, st, []⟩ := by
    intro defs' hall
    unfold deleteDefinitionsUsingObserver
    rw [existingApisOf_nil net defs' hall]
    simp
  refine ⟨?_, hkey defs, ?_⟩
  · intro id hid c hc hmem
    unfold deleteDefinitionsUsingObserver at hc
    split at hc
    · simp at hc
    · split at hc <;>
      · simp only [List.mem_singleton] at hc
        subst hc
        have h2 := (List.mem_filter.mp hmem).2
        rw [hid] at h2
        exact absurd h2 (by simp)
  · intro h1 h2 h3 hall
    have hne : st.tracked.isEmpty = false := by
      cases hst : st.tracked with
      | nil => exact absurd hst h3
      | cons a t => simp [hst]
    simp only [deleteTrackedApiDefinitions, h1, h2, hne, Bool.false_eq_true, if_false,
      Bool.not_false, if_true, hkey st.tracked hall]
    simp

/-- Witness for C6, scenario D: one tracked definition whose existence
check reports false; cleanup makes no bulk-delete call and returns
`true`. -/
theorem c6_witness :
    (deleteTrackedApiDefinitions ⟨fun _ => false, true⟩
      ⟨false, false, [⟨"id1", "v1", "tok"⟩], [], "", ""⟩).result = true
    ∧ (deleteTrackedApiDefinitions ⟨fun _ => false, true⟩
      ⟨false, false, [⟨"id1", "v1", "tok"⟩], [], "", ""⟩).bulkDeleteCalls = [] :=
  (c6_existence_precheck ⟨fun _ => false, true⟩
      ⟨false, false, [⟨"id1", "v1", "tok"⟩], [], "", ""⟩ [⟨"id1", "v1", "tok"⟩]).2.2
    rfl rfl (by simp) (fun d _ => rfl)

/-- C9: whenever the bulk-delete call made on the observer path fails,
`deleteTrackedApiDefinitions` returns `false` and the observer's
tracked list has nonetheless been cleared by the time it returns (the
failed call is recorded in the trace). -/
theorem c9_failure_still_clears_tracking (net : Network) (st : CleanupState) (d : TrackedDef)
    (hip : st.cleanupInProgress = false) (hcc : st.cleanupCompleted = false)
    (hbulk : net.bulkDeleteOk = false)
    (hd : d ∈ st.tracked) (hex : net.apiExists d.apiDefinitionId = true) :
    (deleteTrackedApiDefinitions net st).result = false
    ∧ (deleteTrackedApiDefinitions net st).state.tracked = []
    ∧ (deleteTrackedApiDefinitions net st).bulkDeleteCalls
        = [existingApisOf net st.tracked] := by
  have htr : st.tracked.isEmpty = false := by
    cases hst : st.tracked with
    | nil => rw [hst] at hd; simp at hd
    | cons a t => simp [hst]
  have hmem : d.apiDefinitionId ∈ existingApisOf net st.tracked := by
    unfold existingApisOf
    refine List.mem_filter.mpr ⟨?_, hex⟩
    exact mem_dedupPreserve _ _ (List.mem_map.mpr ⟨d, hd, rfl⟩)
  have hne : (existingApisOf net st.tracked).isEmpty = false := by
    cases hst : existingApisOf net st.tracked with
    | nil => rw [hst] at hmem; simp at hmem
    | cons a t => simp [hst]
  have hobs : deleteDefinitionsUsingObserver net st st.tracked
      = ⟨false, st, [existingApisOf net st.tracked]⟩ := by
    unfold deleteDefinitionsUsingObserver
    rw [hne, hbulk]
    simp
  simp only [deleteTrackedApiDefinitions, hip, hcc, htr, Bool.false_eq_true, if_false,
    Bool.not_false, if_true, hobs]
  simp

/-- Witness for C9: one tracked definition, existing on the server, and
a failing bulk delete. -/
theorem c9_witness :
    (deleteTrackedApiDefinitions ⟨fun _ => true, false⟩
      ⟨false, false, [⟨"id1", "v1", "tok"⟩], [], "", ""⟩).result = false
    ∧ (deleteTrackedApiDefinitions ⟨fun _ => true, false⟩
      ⟨false, false, [⟨"id1", "v1", "tok"⟩], [], "", ""⟩).state.tracked = [] :=
  ⟨(c9_failure_still_clears_tracking ⟨fun _ => true, false⟩
      ⟨false, false, [⟨"id1", "v1", "tok"⟩], [], "", ""⟩ ⟨"id1", "v1", "tok"⟩
      rfl rfl rfl (by simp) rfl).1,
    (c9_failure_still_clears_tracking ⟨fun _ => true, false⟩
      ⟨false, false, [⟨"id1", "v1", "tok"⟩], [], "", ""⟩ ⟨"id1", "v1", "tok"⟩
      rfl rfl rfl (by simp) rfl).2.1⟩

/-- Short-circuit: with the in-progress or completed flag set, cleanup
returns `true` without touching anything. -/
theorem deleteTracked_shortcircuit (net : Network) (st : CleanupState)
    (h : st.cleanupInProgress = true ∨ st.cleanupCompleted = true) :
    deleteTrackedApiDefinitions net st = ⟨true, st, []⟩ := by
  unfold deleteTrackedApiDefinitions
  rcases h with h | h
  · rw [h]
    simp
  · by_cases h2 : st.cleanupInProgress = true
    · rw [h2]
      simp
    · simp only [Bool.not_eq_true] at h2
      rw [h2, h]
      simp

/-- A successful cleanup call leaves one of the guard flags set. -/
theorem deleteTracked_true_flags (net : Network) (st : CleanupState)
    (h : (deleteTrackedApiDefinitions net st).result = true) :
    (deleteTrackedApiDefinitions net st).state.cleanupInProgress = true
    ∨ (deleteTrackedApiDefinitions net st).state.cleanupCompleted = true := by
  by_cases h1 : st.cleanupInProgress = true
  · left
    simp [deleteTrackedApiDefinitions, h1]
  · simp only [Bool.not_eq_true] at h1
    by_cases h2 : st.cleanupCompleted = true
    · right
      simp [deleteTrackedApiDefinitions, h1, h2]
    · simp only [Bool.not_eq_true] at h2
      right
      simp only [deleteTrackedApiDefinitions, h1, h2, Bool.false_eq_true, if_false] at h ⊢
      by_cases h3 : st.tracked.isEmpty = true
      · simp only [h3, Bool.not_true, Bool.false_eq_true, if_false] at h ⊢
        by_cases h4 : st.globalIds.isEmpty = true
        · simp [h4]
        · simp only [Bool.not_eq_true] at h4
          simp only [h4, Bool.false_eq_true, if_false] at h ⊢
          simp only [h] at h ⊢
          simp [h]
      · simp only [Bool.not_eq_true] at h3
        simp only [h3, Bool.not_false, if_true] at h ⊢
        simp only [h] at h ⊢
        simp [h]

/-- Each cleanup entry point makes at most one bulk-delete call. -/
theorem deleteTracked_calls_le_one (net : Network) (st : CleanupState) :
    (deleteTrackedApiDefinitions net st).bulkDeleteCalls.length ≤ 1 := by
  unfold deleteTrackedApiDefinitions
  split
  · simp
  split
  · simp
  split
  · unfold deleteDefinitionsUsingObserver
    split
    · simp
    split <;> simp
  split
  · simp
  · unfold deleteLegacyTrackedDefinitions
    split
    · simp
    split <;> simp

/-- C4 (amended): once the first of two successive cleanup calls
returns `true`, the second is a state-preserving no-op, both calls
return `true`, and the pair performs the bulk-delete at most once. -/
theorem c4_second_call_noop_after_success (net1 net2 : Network) (st : CleanupState)
    (h1 : (deleteTrackedApiDefinitions net1 st).result = true) :
    (deleteTwice net1 net2 st).1.1 = true
    ∧ (deleteTwice net1 net2 st).1.2 = true
    ∧ (deleteTwice net1 net2 st).2.2.length ≤ 1
    ∧ (deleteTrackedApiDefinitions net2 (deleteTrackedApiDefinitions net1 st).state).state
        = (deleteTrackedApiDefinitions net1 st).state := by
  have hsc := deleteTracked_shortcircuit net2 _ (deleteTracked_true_flags net1 st h1)
  refine ⟨h1, ?_, ?_, ?_⟩
  · show (deleteTrackedApiDefinitions net2 (deleteTrackedApiDefinitions net1 st).state).result
      = true
    rw [hsc]
  · show ((deleteTrackedApiDefinitions net1 st).bulkDeleteCalls
      ++ (deleteTrackedApiDefinitions net2
          (deleteTrackedApiDefinitions net1 st).state).bulkDeleteCalls).length ≤ 1
    rw [hsc]
    simpa using deleteTracked_calls_le_one net1 st
  · rw [hsc]

/-- C4 counterexample: when the first call's bulk delete fails (the
tracked list is cleared but the legacy globals survive), the second
call retries through the legacy path — two successive calls perform
the bulk-delete network call twice. -/
theorem c4_counterexample :
    (deleteTwice ⟨fun _ => true, false⟩ ⟨fun _ => true, false⟩
      ⟨false, false, [⟨"id1", "v1", "tok"⟩], ["id1"], "v1", "tok"⟩).2.2
      = [["id1"], ["id1"]]
    ∧ (deleteTwice ⟨fun _ => true, false⟩ ⟨fun _ => true, false⟩
      ⟨false, false, [⟨"id1", "v1", "tok"⟩], ["id1"], "v1", "tok"⟩).1
      = (false, false) :=
  ⟨rfl, rfl⟩

/-- Witness for C4 with a succeeding first call: one tracked
definition, healthy network. -/
theorem c4_witness :
    (deleteTwice ⟨fun _ => true, true⟩ ⟨fun _ => true, true⟩
      ⟨false, false, [⟨"id1", "v1", "tok"⟩], [], "", ""⟩).1.1 = true
    ∧ (deleteTwice ⟨fun _ => true, true⟩ ⟨fun _ => true, true⟩
      ⟨false, false, [⟨"id1", "v1", "tok"⟩], [], "", ""⟩).1.2 = true
    ∧ (deleteTwice ⟨fun _ => true, true⟩ ⟨fun _ => true, true⟩
      ⟨false, false, [⟨"id1", "v1", "tok"⟩], [], "", ""⟩).2.2.length ≤ 1 :=
  ⟨(c4_second_call_noop_after_success ⟨fun _ => true, true⟩ ⟨fun _ => true, true⟩
      ⟨false, false, [⟨"id1", "v1", "tok"⟩], [], "", ""⟩ rfl).1,
    (c4_second_call_noop_after_success ⟨fun _ => true, true⟩ ⟨fun _ => true, true⟩
      ⟨false, false, [⟨"id1", "v1", "tok"⟩], [], "", ""⟩ rfl).2.1,
    (c4_second_call_noop_after_success ⟨fun _ => true, true⟩ ⟨fun _ => true, true⟩
      ⟨false, false, [⟨"id1", "v1", "tok"⟩], [], "", ""⟩ rfl).2.2.1⟩

/-! ### Claim C1: missing required info fields -/

/-- No parser accepts a URL source (`canParse` returns false outside
file paths and content strings). -/
theorem findFormatParser_url (s : String) : findFormatParser s .url = none := rfl

/-- No parser accepts a buffer source. -/
theorem findFormatParser_buffer (s : String) : findFormatParser s .buffer = none := rfl

/-- A document lacking `info.title` or `info.version` fails validation
with one of the three missing-field errors. -/
theorem validateApiSpec_missing (t : Option Json)
    (hmiss : infoField t "title" = none ∨ infoField t "version" = none) :
    validateApiSpec t = .error .missingInfo
    ∨ validateApiSpec t = .error .missingTitle
    ∨ validateApiSpec t = .error .missingVersion := by
  unfold validateApiSpec
  by_cases h1 : truthy t = true
  · by_cases h2 : truthy (jsGetOpt t "info") = true
    · by_cases h3 : truthy (jsGetOpt (jsGetOpt t "info") "title") = true
      · by_cases h4 : truthy (jsGetOpt (jsGetOpt t "info") "version") = true
        · exfalso
          unfold infoField at hmiss
          rcases hmiss with hm | hm
          · rw [hm] at h3
            simp [truthy] at h3
          · rw [hm] at h4
            simp [truthy] at h4
        · simp only [Bool.not_eq_true] at h4
          simp [h1, h2, h3, h4]
      · simp only [Bool.not_eq_true] at h3
        simp [h1, h2, h3]
    · simp only [Bool.not_eq_true] at h2
      simp [h1, h2]
  · simp only [Bool.not_eq_true] at h1
    simp [h1]

/-- The two-step unguarded member access `spec.info.<k2>` succeeds with
the safe-access value whenever `spec.info` is neither `undefined` nor
`null`. -/
theorem jsGetE_chain (t : Option Json) (k k2 : String)
    (hinfo : isNullish (jsGetOpt t k) = false) :
    (match jsGetE t k with
      | .error e => Except.error e
      | .ok info => jsGetE info k2)
      = .ok (jsGetOpt (jsGetOpt t k) k2) := by
  cases t with
  | none => simp [jsGetOpt, isNullish] at hinfo
  | some j =>
    cases j with
    | null => simp [jsGetOpt, isNullish] at hinfo
    | obj fs =>
      cases hl : Json.lookup? fs k with
      | none =>
        rw [show jsGetOpt (some (Json.obj fs)) k = Json.lookup? fs k from rfl, hl] at hinfo
        simp [isNullish] at hinfo
      | some v =>
        cases v with
        | null =>
          rw [show jsGetOpt (some (Json.obj fs)) k = Json.lookup? fs k from rfl, hl] at hinfo
          simp [isNullish] at hinfo
        | bool b => simp [jsGetE, jsGetOpt, hl]
        | num n => simp [jsGetE, jsGetOpt, hl]
        | str s => simp [jsGetE, jsGetOpt, hl]
        | arr xs => simp [jsGetE, jsGetOpt, hl]
        | obj gs => simp [jsGetE, jsGetOpt, hl]
    | bool b => simp [jsGetOpt, isNullish] at hinfo
    | num n => simp [jsGetOpt, isNullish] at hinfo
    | str s => simp [jsGetOpt, isNullish] at hinfo
    | arr xs => simp [jsGetOpt, isNullish] at hinfo

/-- The unguarded `spec.info.<k2>` raises a `TypeError` whenever
`spec.info` is `undefined` or `null` — including when `spec` itself is
`undefined`/`null` or a primitive. -/
theorem jsGetE_chain_nullish (t : Option Json) (k k2 : String)
    (hinfo : isNullish (jsGetOpt t k) = true) :
    (match jsGetE t k with
      | .error e => Except.error e
      | .ok info => jsGetE info k2) = .error SpecError.typeErr := by
  cases t with
  | none => rfl
  | some j =>
    cases j with
    | null => rfl
    | obj fs =>
      cases hl : Json.lookup? fs k with
      | none => simp [jsGetE, hl]
      | some v =>
        cases v with
        | null => simp [jsGetE, hl]
        | bool b =>
          rw [show jsGetOpt (some (Json.obj fs)) k = Json.lookup? fs k from rfl, hl] at hinfo
          simp [isNullish] at hinfo
        | num n =>
          rw [show jsGetOpt (some (Json.obj fs)) k = Json.lookup? fs k from rfl, hl] at hinfo
          simp [isNullish] at hinfo
        | str s =>
          rw [show jsGetOpt (some (Json.obj fs)) k = Json.lookup? fs k from rfl, hl] at hinfo
          simp [isNullish] at hinfo
        | arr xs =>
          rw [show jsGetOpt (some (Json.obj fs)) k = Json.lookup? fs k from rfl, hl] at hinfo
          simp [isNullish] at hinfo
        | obj gs =>
          rw [show jsGetOpt (some (Json.obj fs)) k = Json.lookup? fs k from rfl, hl] at hinfo
          simp [isNullish] at hinfo
    | bool b => rfl
    | num n => rfl
    | str s => rfl
    | arr xs => rfl

/-- C1 (amended): for every dispatched source whose decoded tree lacks
`info.title` or `info.version`, parsing with validation enabled fails
with the wrapped invalid-specification error naming the missing
section or field, and parsing with validation disabled succeeds; the
corresponding accessor then returns `undefined` when the `info`
section is present (non-nullish) but lacks the field, and raises a
`TypeError` — rather than returning `undefined` — when the `info`
section is absent. -/
theorem c1_missing_required_fields
    (decode : FormatParser → String → Except SpecError (Option Json))
    (source content : String) (ty : ApiSpecSourceType) (p : FormatParser) (t : Option Json)
    (hdisp : findFormatParser source ty = some p)
    (hdec : decode p content = .ok t)
    (hmiss : infoField t "title" = none ∨ infoField t "version" = none) :
    (∃ e, (e = SpecError.missingInfo ∨ e = SpecError.missingTitle
        ∨ e = SpecError.missingVersion)
      ∧ parseApiSpecContent decode true source content ty = .error (.wrapped e))
    ∧ parseApiSpecContent decode false source content ty = .ok t
    ∧ (isNullish (jsGetOpt t "info") = false →
      (infoField t "title" = none → getApiTitle decode false source content ty = .ok none)
      ∧ (infoField t "version" = none →
        getApiVersion decode false source content ty = .ok none))
    ∧ (isNullish (jsGetOpt t "info") = true →
      getApiTitle decode false source content ty = .error .typeErr
      ∧ getApiVersion decode false source content ty = .error .typeErr) := by
  have hty : ty = .filePath ∨ ty = .contentString := by
    cases ty
    · exact .inl rfl
    · exact .inr rfl
    · rw [findFormatParser_url] at hdisp
      simp at hdisp
    · rw [findFormatParser_buffer] at hdisp
      simp at hdisp
  have hrun : ∀ v : Bool, parseApiSpecContent decode v source content ty
      = parseApiSpecFromTree v t := by
    intro v
    rcases hty with h | h <;> subst h <;> simp [parseApiSpecContent, hdisp, hdec]
  have htitle : getApiTitle decode false source content ty
      = (match jsGetE t "info" with
        | .error e => Except.error e
        | .ok info => jsGetE info "title") := by
    unfold getApiTitle
    rw [hrun false]
    simp [parseApiSpecFromTree]
  have hversion : getApiVersion decode false source content ty
      = (match jsGetE t "info" with
        | .error e => Except.error e
        | .ok info => jsGetE info "version") := by
    unfold getApiVersion
    rw [hrun false]
    simp [parseApiSpecFromTree]
  refine ⟨?_, ?_, ?_, ?_⟩
  · rcases validateApiSpec_missing t hmiss with he | he | he
    · exact ⟨.missingInfo, .inl rfl, by rw [hrun true]; simp [parseApiSpecFromTree, he]⟩
    · exact ⟨.missingTitle, .inr (.inl rfl), by rw [hrun true]; simp [parseApiSpecFromTree, he]⟩
    · exact ⟨.missingVersion, .inr (.inr rfl), by rw [hrun true]; simp [parseApiSpecFromTree, he]⟩
  · rw [hrun false]
    rfl
  · intro hinfo
    refine ⟨fun hm => ?_, fun hm => ?_⟩
    · rw [htitle, jsGetE_chain t "info" "title" hinfo]
      unfold infoField at hm
      rw [hm]
    · rw [hversion, jsGetE_chain t "info" "version" hinfo]
      unfold infoField at hm
      rw [hm]
  · intro hinfo
    exact ⟨by rw [htitle]; exact jsGetE_chain_nullish t "info" "title" hinfo,
      by rw [hversion]; exact jsGetE_chain_nullish t "info" "version" hinfo⟩

/-- C1 counterexample: for a document decoding to the empty object (no
`info` section at all), parsing with validation disabled succeeds, yet
`getApiTitle` raises a `TypeError` instead of returning `undefined`. -/
theorem c1_counterexample :
    parseApiSpecContent (fun _ _ => .ok (some (Json.obj []))) false "spec.yaml" "x" .filePath
      = .ok (some (Json.obj []))
    ∧ getApiTitle (fun _ _ => .ok (some (Json.obj []))) false "spec.yaml" "x" .filePath
      = .error .typeErr :=
  ⟨rfl, rfl⟩

/-- Witness for C1 on a document whose `info` has a title but no
version: validation-enabled parsing fails wrapped, validation-disabled
parsing succeeds and `getApiVersion` returns `undefined`. -/
theorem c1_witness :
    (∃ e, (e = SpecError.missingInfo ∨ e = SpecError.missingTitle
        ∨ e = SpecError.missingVersion)
      ∧ parseApiSpecContent
          (fun _ _ => .ok (some (Json.obj [("info", Json.obj [("title", Json.str "Pets")])])))
          true "spec.yaml" "x" .filePath = .error (.wrapped e))
    ∧ parseApiSpecContent
        (fun _ _ => .ok (some (Json.obj [("info", Json.obj [("title", Json.str "Pets")])])))
        false "spec.yaml" "x" .filePath
      = .ok (some (Json.obj [("info", Json.obj [("title", Json.str "Pets")])]))
    ∧ getApiVersion
        (fun _ _ => .ok (some (Json.obj [("info", Json.obj [("title", Json.str "Pets")])])))
        false "spec.yaml" "x" .filePath = .ok none :=
  have h := c1_missing_required_fields
    (fun _ _ => .ok (some (Json.obj [("info", Json.obj [("title", Json.str "Pets")])])))
    "spec.yaml" "x" .filePath .yaml
    (some (Json.obj [("info", Json.obj [("title", Json.str "Pets")])]))
    rfl rfl (Or.inr rfl)
  ⟨h.1, h.2.1, (h.2.2.1 rfl).2 rfl⟩

/-! ### Claim C2: dispatch and pipeline equivalence across encodings -/

/-- C2 (amended): dispatch by file extension always selects the
corresponding parser (`.yaml`/`.yml` select YAML, `.json` selects
JSON); for content strings, YAML-shaped content selects the YAML
parser, while brace-delimited JSON content selects the JSON parser
exactly when the YAML heuristic does not also claim it (the YAML
parser is registered first); and whenever the two encodings decode to
the same document tree, the parse-then-extract pipeline produces
identical `ExtractedTestData`. -/
theorem c2_format_equivalence
    (decodeY decodeJ : String → Except SpecError (Option Json))
    (pY pJ cY cJ cY2 cJ2 : String) :
    ((lowerStr (extname pY) = ".yaml" ∨ lowerStr (extname pY) = ".yml") →
      findFormatParser pY .filePath = some .yaml)
    ∧ (lowerStr (extname pJ) = ".json" → findFormatParser pJ .filePath = some .json)
    ∧ (jsStartsWith (jsTrim cY) "openapi:" = true →
      findFormatParser cY .contentString = some .yaml)
    ∧ (yamlCanParse cJ .contentString = false → jsonCanParse cJ .contentString = true →
      findFormatParser cJ .contentString = some .json)
    ∧ (decodeY cY2 = decodeJ cJ2 →
      pipelineExtract decodeY cY2 = pipelineExtract decodeJ cJ2) := by
  refine ⟨fun h => ?_, fun h => ?_, fun h => ?_, fun h1 h2 => ?_, fun h => ?_⟩
  · have hy : yamlCanParse pY .filePath = true := by
      unfold yamlCanParse
      rcases h with h | h <;> simp [h]
    simp [findFormatParser, formatParsers, List.find?, canParse, hy]
  · have hy : yamlCanParse pJ .filePath = false := by
      unfold yamlCanParse
      simp [h]
    have hj : jsonCanParse pJ .filePath = true := by
      unfold jsonCanParse
      simp [h]
    simp [findFormatParser, formatParsers, List.find?, canParse, hy, hj]
  · have hy : yamlCanParse cY .contentString = true := by
      unfold yamlCanParse
      simp [h]
    simp [findFormatParser, formatParsers, List.find?, canParse, hy]
  · simp [findFormatParser, formatParsers, List.find?, canParse, h1, h2]
  · unfold pipelineExtract
    rw [h]

/-- C2 counterexample: a brace-delimited JSON encoding of a spec whose
title contains a dash-space (`"a - b"`) satisfies the JSON parser's
content heuristic, yet the dispatcher selects the YAML parser (its
`includes('- ')` heuristic fires and it is registered first), so the
"content heuristic selects the corresponding parser" part of the claim
fails on this input. -/
theorem c2_counterexample :
    jsonCanParse "\x7b\"info\": \x7b\"title\": \"a - b\", \"version\": \"1\"\x7d\x7d"
      .contentString = true
    ∧ findFormatParser "\x7b\"info\": \x7b\"title\": \"a - b\", \"version\": \"1\"\x7d\x7d"
        .contentString = some FormatParser.yaml :=
  ⟨rfl, rfl⟩

/-- Witness for C2: concrete YAML/JSON paths and contents, and one
shared decoded tree for the pipeline equality. -/
theorem c2_witness :
    findFormatParser "petstore.yaml" .filePath = some .yaml
    ∧ findFormatParser "petstore.json" .filePath = some .json
    ∧ findFormatParser "openapi: 3.0.0" .contentString = some .yaml
    ∧ findFormatParser "\x7b\"a\": 1\x7d" .contentString = some .json
    ∧ pipelineExtract
        (fun _ => .ok (some (Json.obj [("info",
          Json.obj [("title", Json.str "T"), ("version", Json.str "1")])])))
        "openapi: 3.0.0"
      = pipelineExtract
        (fun _ => .ok (some (Json.obj [("info",
          Json.obj [("title", Json.str "T"), ("version", Json.str "1")])])))
        "\x7b\"a\": 1\x7d" :=
  have h := c2_format_equivalence
    (fun _ => .ok (some (Json.obj [("info",
      Json.obj [("title", Json.str "T"), ("version", Json.str "1")])])))
    (fun _ => .ok (some (Json.obj [("info",
      Json.obj [("title", Json.str "T"), ("version", Json.str "1")])])))
    "petstore.yaml" "petstore.json" "openapi: 3.0.0" "\x7b\"a\": 1\x7d"
    "openapi: 3.0.0" "\x7b\"a\": 1\x7d"
  ⟨h.1 (Or.inl rfl), h.2.1 rfl, h.2.2.1 rfl, h.2.2.2.1 rfl rfl, h.2.2.2.2 rfl⟩
